import Mathlib

/-!
Shallow embedding of the Enders-Sync client (`src/src/client.ts`) and proofs
about its specification claims.

JavaScript strings are modelled as Lean `String`s (with helper operations
`jsEndsWith`, `jsSliceDropLast` mirroring `String.prototype.endsWith` and
`slice(0, -1)` via the character list `String.data`).  JSON values carried in
`params` / `data` are modelled by the flat type `JsValue`.  The single network
round trip performed by `RPC.call` is modelled by passing the world's answer
(`FetchResult`) as an explicit argument; the request the client sends is
returned explicitly so that theorems can speak about it.  The mutable instance
state of an `RPC` object is its table of own properties (JavaScript own
properties shadow the class prototype methods `load` / `call`), modelled as an
association list `ownProps`.
-/

/-- A JSON-ish value, standing in for the `any` values used for `params`
entries and `data` payloads on the wire. -/
inductive JsValue where
  | str (s : String)
  | num (n : Int)
  | bool (b : Bool)
  | null
deriving DecidableEq, Repr

/-- Embeds `interface RPCResponse` (client.ts lines 1-5): the result envelope
`{ success: boolean, data?: T, error?: string }`. -/
structure RPCResponse where
  success : Bool
  data : Option JsValue
  error : Option String
deriving DecidableEq, Repr

/-- Embeds `const api_version = 1` (client.ts line 8). -/
def api_version : Nat := 1

/-- Embeds `interface RPCConfig { url: string }` (client.ts lines 10-12). -/
structure RPCConfig where
  url : String
deriving DecidableEq, Repr

/-- A value stored in an own property of the client object: either a plain
string (the `url` field) or a dynamically installed forwarding stub
`(...args) => this.call(target, args)` capturing the method name `target`. -/
inductive PropValue where
  | str (s : String)
  | stub (target : String)
deriving DecidableEq, Repr

/-- The mutable instance state of an `RPC` object: its JavaScript own
properties (the constructor installs `url`; `load` installs one stub
property per name).  Prototype methods are not own properties. -/
structure RPCState where
  ownProps : List (String × PropValue)
deriving DecidableEq, Repr

/-- Association-list lookup: the value of own property `k`, mirroring
JavaScript own-property access. -/
def lookupProp : List (String × PropValue) → String → Option PropValue
  | [], _ => none
  | (k', v') :: rest, k => if k' = k then some v' else lookupProp rest k

/-- Association-list update: JavaScript property assignment `this[k] = v`
overwrites an existing own property in place or appends a new one. -/
def setProp : List (String × PropValue) → String → PropValue → List (String × PropValue)
  | [], k, v => [(k, v)]
  | (k', v') :: rest, k, v =>
    if k' = k then (k, v) :: rest else (k', v') :: setProp rest k v

/-- Character-list test that `needle` occurs at the front of `hay`. -/
def listStartsWith : List Char → List Char → Bool
  | _, [] => true
  | [], _ :: _ => false
  | a :: as, b :: bs => (a == b) && listStartsWith as bs

/-- Character-list test that `t` is a suffix of `s`. -/
def listEndsWith (s t : List Char) : Bool :=
  listStartsWith s.reverse t.reverse

/-- Character-list test that `needle` occurs somewhere inside `hay`. -/
def hasSubList : List Char → List Char → Bool
  | [], needle => listStartsWith [] needle
  | h :: t, needle => listStartsWith (h :: t) needle || hasSubList t needle

/-- Embeds JavaScript `s.endsWith(t)` (used at client.ts line 22 with `"/"`). -/
def jsEndsWith (s t : String) : Bool :=
  listEndsWith s.data t.data

/-- Embeds JavaScript `s.slice(0, -1)` (client.ts line 22): every character
but the last. -/
def jsSliceDropLast (s : String) : String :=
  ⟨s.data.dropLast⟩

/-- Substring test on Lean strings, used to state "the message contains
the server-supplied text". -/
def containsString (s sub : String) : Bool :=
  hasSubList s.data sub.data

/-- Embeds client.ts line 22:
`urlString.endsWith("/") ? urlString.slice(0, -1) : urlString`. -/
def normalizeUrl (s : String) : String :=
  if jsEndsWith s "/" then jsSliceDropLast s else s

/-- The constructor argument `url: string | RPCConfig` (client.ts line 20). -/
inductive CtorArg where
  | str (s : String)
  | config (cfg : RPCConfig)
deriving DecidableEq, Repr

/-- Embeds the `RPC` constructor (client.ts lines 20-23):
`const urlString = typeof url === 'string' ? url : url.url;`
`this.url = urlString.endsWith("/") ? urlString.slice(0, -1) : urlString;`. -/
def mkRPC (arg : CtorArg) : RPCState :=
  let urlString := match arg with
    | CtorArg.str s => s
    | CtorArg.config cfg => cfg.url
  { ownProps := [("url", PropValue.str (normalizeUrl urlString))] }

/-- JavaScript string interpolation of the installed stub closure would yield
its source text; the concrete text never matters to any claim. -/
def stubSourceText : String :=
  "(...args) => this.call(name, args)"

/-- The string value of `this.url` as read inside `call` (client.ts lines
35, 45): own-property access on the instance.  After construction this is the
normalized base url; a stub installed over `url` would stringify to the
closure source text, and an absent property to `undefined`. -/
def RPC.urlString (c : RPCState) : String :=
  match lookupProp c.ownProps "url" with
  | some (PropValue.str s) => s
  | some (PropValue.stub _) => stubSourceText
  | none => "undefined"

/-- Embeds `load(...method: string[])` (client.ts lines 25-29): for each given
name, `this[name] = (...args) => this.call(name, args)`.  Note that in the
source `load` receives the names as explicit arguments, performs no network
request of any kind (its body is a plain loop of property assignments), and
returns `void`; the absence of a fetch is why this embedding takes no
`FetchResult`. -/
def RPC.load (c : RPCState) (methods : List String) : RPCState :=
  { ownProps :=
      methods.foldl (fun ps name => setProp ps name (PropValue.stub name)) c.ownProps }

/-- The wire request body built at client.ts line 41:
`{ method: name, params, version: api_version }`. -/
structure CallEnvelope where
  method : String
  params : List JsValue
  version : Nat
deriving DecidableEq, Repr

/-- The HTTP request issued by `fetch` at client.ts lines 35-42. -/
structure Request where
  url : String
  httpMethod : String
  headers : List (String × String)
  body : CallEnvelope
deriving DecidableEq, Repr

/-- The world's answer to the single `fetch` of `call`: either the transport
itself fails (the `catch (e)` branch, lines 43-45) or a response arrives and
`response.json()` yields a result envelope. -/
inductive FetchResult where
  | networkError (cause : String)
  | ok (resp : RPCResponse)
deriving DecidableEq, Repr

/-- The observable outcome of the promise returned by `call`: resolution with
`data.data` (possibly absent) or rejection with an error message. -/
inductive CallOutcome where
  | resolved (value : Option JsValue)
  | rejected (message : String)
deriving DecidableEq, Repr

/-- The message of the error thrown at client.ts line 44:
`RPC Network Error while calling ${name} from ${this.url}: ${e}`. -/
def networkErrorMsg (name url cause : String) : String :=
  "RPC Network Error while calling " ++ name ++ " from " ++ url ++ ": " ++ cause

/-- The message of the error thrown at client.ts line 49:
`RPC function error from backend: ${name}()\t ${data.error?.toString()}`
(an absent `error` field renders as `undefined`). -/
def backendErrorMsg (name : String) (err : Option String) : String :=
  "RPC function error from backend: " ++ name ++ "()\t " ++ err.getD "undefined"

/-- Embeds `async call<T>(name, params)` (client.ts lines 31-53).  The body
performs exactly one `fetch` of a POST to `${this.url}/call` with the JSON
body `{ method: name, params, version: api_version }`; on transport failure it
throws the network error, otherwise it parses the envelope and either throws
the backend error (`!data.success`) or returns `data.data`.  The returned
triple is (instance state after the call — `call` assigns no property, so it
is unchanged; the list of requests sent; the promise outcome). -/
def RPC.call (c : RPCState) (name : String) (params : List JsValue)
    (fr : FetchResult) : RPCState × List Request × CallOutcome :=
  (c,
   [{ url := RPC.urlString c ++ "/call"
      httpMethod := "POST"
      headers := [("Content-Type", "application/json")]
      body := { method := name, params := params, version := api_version } }],
   match fr with
   | FetchResult.networkError cause =>
       CallOutcome.rejected (networkErrorMsg name (RPC.urlString c) cause)
   | FetchResult.ok resp =>
       if resp.success then CallOutcome.resolved resp.data
       else CallOutcome.rejected (backendErrorMsg name resp.error))

/-- A member reachable by property access on the client object: an own
property, a class prototype method, or nothing. -/
inductive Member where
  | value (v : PropValue)
  | classMethod (m : String)
  | undef
deriving DecidableEq, Repr

/-- JavaScript property access `c[k]`: own properties shadow the prototype
methods of `class RPC` (`constructor`, `load`, `call`, lines 14-54). -/
def RPC.getProp (c : RPCState) (k : String) : Member :=
  match lookupProp c.ownProps k with
  | some v => Member.value v
  | none =>
    if k = "load" ∨ k = "call" ∨ k = "constructor" then Member.classMethod k
    else Member.undef

/-- Own property `n` of `c` holds the forwarding stub installed for name `n`. -/
@[reducible] def stubInstalled (c : RPCState) (n : String) : Prop :=
  lookupProp c.ownProps n = some (PropValue.stub n)

/-- Invoking `c[k](...args)` when `c[k]` is an installed stub: the stub body
is `(...args) => this.call(target, args)` (client.ts line 27), so the
invocation is the forwarding call.  `none` when `c[k]` is not a stub. -/
def RPC.invokeDynamic (c : RPCState) (k : String) (args : List JsValue)
    (fr : FetchResult) : Option (RPCState × List Request × CallOutcome) :=
  match RPC.getProp c k with
  | Member.value (PropValue.stub target) => some (RPC.call c target args fr)
  | _ => none

/-! ## Helper lemmas -/

theorem lookupProp_set (ps : List (String × PropValue)) (k : String) (v : PropValue)
    (n : String) :
    lookupProp (setProp ps k v) n = if n = k then some v else lookupProp ps n := by
  induction ps with
  | nil =>
    by_cases h : n = k
    · subst h; simp [setProp, lookupProp]
    · simp [setProp, lookupProp, h, Ne.symm h]
  | cons a rest ih =>
    obtain ⟨k', v'⟩ := a
    by_cases h1 : k' = k
    · subst h1
      by_cases h2 : n = k'
      · subst h2; simp [setProp, lookupProp]
      · simp [setProp, lookupProp, h2, Ne.symm h2]
    · by_cases h2 : k' = n
      · have hnk : n ≠ k := fun hh => h1 (h2.trans hh)
        simp [setProp, lookupProp, h1, h2, hnk]
      · simp [setProp, lookupProp, h1, h2, ih]

theorem lookupProp_loadFold (names : List String) (ps : List (String × PropValue))
    (n : String) :
    lookupProp (names.foldl (fun ps name => setProp ps name (PropValue.stub name)) ps) n =
      if n ∈ names then some (PropValue.stub n) else lookupProp ps n := by
  induction names generalizing ps with
  | nil => simp
  | cons x xs ih =>
    simp only [List.foldl_cons, ih, lookupProp_set, List.mem_cons]
    by_cases hx : n ∈ xs
    · simp [hx]
    · by_cases hnx : n = x
      · subst hnx; simp [hx]
      · simp [hx, hnx]

theorem listStartsWith_nil_right (l : List Char) : listStartsWith l [] = true := by
  cases l <;> simp [listStartsWith]

theorem listStartsWith_append_self (a b : List Char) :
    listStartsWith (a ++ b) a = true := by
  induction a with
  | nil => simpa using listStartsWith_nil_right b
  | cons x xs ih => simp [listStartsWith, ih]

theorem listStartsWith_append_right (a b sub : List Char)
    (h : listStartsWith a sub = true) : listStartsWith (a ++ b) sub = true := by
  induction sub generalizing a with
  | nil => exact listStartsWith_nil_right _
  | cons s ss ih =>
    cases a with
    | nil => simp [listStartsWith] at h
    | cons x xs =>
      simp only [listStartsWith, Bool.and_eq_true] at h
      simp [listStartsWith, h.1, ih xs h.2]

theorem hasSubList_of_startsWith (hay needle : List Char)
    (h : listStartsWith hay needle = true) : hasSubList hay needle = true := by
  cases hay <;> simp [hasSubList, h]

theorem hasSubList_nil_needle (hay : List Char) : hasSubList hay [] = true := by
  induction hay with
  | nil => rfl
  | cons x xs ih => simp [hasSubList, listStartsWith]

theorem hasSubList_append_left (a b sub : List Char) (h : hasSubList b sub = true) :
    hasSubList (a ++ b) sub = true := by
  induction a with
  | nil => simpa
  | cons x xs ih => simp [hasSubList, ih]

theorem hasSubList_append_right (a b sub : List Char) (h : hasSubList a sub = true) :
    hasSubList (a ++ b) sub = true := by
  induction a with
  | nil =>
    cases sub with
    | nil => simpa using hasSubList_nil_needle b
    | cons s ss => simp [hasSubList, listStartsWith] at h
  | cons x xs ih =>
    simp only [hasSubList, Bool.or_eq_true] at h
    rcases h with h | h
    · exact hasSubList_of_startsWith _ _
        (listStartsWith_append_right (x :: xs) b sub h)
    · simp [hasSubList, ih h]

theorem hasSubList_self (sub rest : List Char) : hasSubList (sub ++ rest) sub = true := by
  cases sub with
  | nil => simpa using hasSubList_nil_needle rest
  | cons x xs =>
    exact hasSubList_of_startsWith _ _ (listStartsWith_append_self (x :: xs) rest)

theorem hasSubList_refl (sub : List Char) : hasSubList sub sub = true := by
  simpa using hasSubList_self sub []

theorem containsString_end (p s : String) : containsString (p ++ s) s = true :=
  hasSubList_append_left p.data s.data s.data (hasSubList_refl s.data)

theorem containsString_mid (p s q r : String) :
    containsString (((p ++ s) ++ q) ++ r) s = true := by
  show hasSubList (((p.data ++ s.data) ++ q.data) ++ r.data) s.data = true
  rw [List.append_assoc, List.append_assoc]
  exact hasSubList_append_left _ _ _ (hasSubList_self _ _)

theorem urlString_mkRPC_str (s : String) :
    RPC.urlString (mkRPC (CtorArg.str s)) = normalizeUrl s := rfl

theorem jsEndsWith_append_slash (t : String) : jsEndsWith (t ++ "/") "/" = true := by
  show listStartsWith ((t.data ++ ['/']).reverse) (['/'].reverse) = true
  simp [List.reverse_append, listStartsWith, listStartsWith_nil_right]

theorem jsSliceDropLast_append_slash (t : String) : jsSliceDropLast (t ++ "/") = t := by
  show (⟨(t.data ++ ['/']).dropLast⟩ : String) = t
  rw [List.dropLast_concat]

/-! ## Claim theorems -/

/-- C1: for every `call(name, params)` whose POST completes with a result
envelope, a `success: true` envelope makes the promise resolve with exactly
the envelope's `data` value, and a `success: false` envelope makes it reject
with the backend error message, whose text contains the server-supplied
`error` string whenever one is present. -/
theorem c1_envelope_outcome (c : RPCState) (name : String) (params : List JsValue)
    (d : Option JsValue) (err : Option String) (e : String) :
    (RPC.call c name params (FetchResult.ok ⟨true, d, err⟩)).2.2 =
      CallOutcome.resolved d ∧
    (RPC.call c name params (FetchResult.ok ⟨false, d, err⟩)).2.2 =
      CallOutcome.rejected (backendErrorMsg name err) ∧
    containsString (backendErrorMsg name (some e)) e = true := by
  refine ⟨rfl, rfl, ?_⟩
  exact containsString_end (("RPC function error from backend: " ++ name) ++ "()\t ") e

/-- C2: the claim says `load` issues a read request to the discovery endpoint
and installs a stub per retrieved name.  In the source, `load` takes the
method names as explicit arguments and touches the network nowhere (compare
the type of `RPC.load`, which consumes no `FetchResult`): invoked with no
names — the documented usage `await api.load()` — it leaves the client
exactly as constructed and installs no stub at all. -/
theorem c2_load_performs_no_discovery :
    RPC.load (mkRPC (CtorArg.str "/api/public")) [] = mkRPC (CtorArg.str "/api/public") ∧
    RPC.getProp (RPC.load (mkRPC (CtorArg.str "/api/public")) []) "getUser" =
      Member.undef :=
  ⟨rfl, by decide⟩

/-- C3: for every name with an installed stub and every argument list,
invoking the stub property is exactly the forwarding call
`call(name, args)`: same state, same request, same outcome. -/
theorem c3_stub_forwards (c : RPCState) (name : String) (args : List JsValue)
    (fr : FetchResult) (h : stubInstalled c name) :
    RPC.invokeDynamic c name args fr = some (RPC.call c name args fr) := by
  simp [RPC.invokeDynamic, RPC.getProp, h]

/-- Witness for C3 at a concretely loaded client. -/
theorem c3_stub_forwards_witness :
    RPC.invokeDynamic (RPC.load (mkRPC (CtorArg.str "/api")) ["add"]) "add"
        [JsValue.num 2, JsValue.num 3] (FetchResult.networkError "down") =
      some (RPC.call (RPC.load (mkRPC (CtorArg.str "/api")) ["add"]) "add"
        [JsValue.num 2, JsValue.num 3] (FetchResult.networkError "down")) :=
  c3_stub_forwards _ _ _ _ (by decide)

/-- C4: every `call(name, params)` sends exactly one request: a POST to the
stored base url followed by `/call`, whose body is precisely
`{ method: name, params: params, version: api_version }` with the given
params list carried verbatim (order preserved), and `api_version` is 1. -/
theorem c4_single_post_request (c : RPCState) (name : String) (params : List JsValue)
    (fr : FetchResult) :
    (RPC.call c name params fr).2.1 =
      [{ url := RPC.urlString c ++ "/call"
         httpMethod := "POST"
         headers := [("Content-Type", "application/json")]
         body := { method := name, params := params, version := api_version } }] ∧
    api_version = 1 :=
  ⟨rfl, rfl⟩

/-- C5 counterexample: for the client stored at `http://origin.example`, a
`success: false` envelope with error `boom` on method `f` rejects with a
message that contains the function name and the server text but does NOT
contain the origin address, refuting the claim that the text combines all
three. -/
theorem c5_counterexample :
    (RPC.call (mkRPC (CtorArg.str "http://origin.example")) "f" []
        (FetchResult.ok ⟨false, none, some "boom"⟩)).2.2 =
      CallOutcome.rejected (backendErrorMsg "f" (some "boom")) ∧
    RPC.urlString (mkRPC (CtorArg.str "http://origin.example")) =
      "http://origin.example" ∧
    containsString (backendErrorMsg "f" (some "boom")) "f" = true ∧
    containsString (backendErrorMsg "f" (some "boom")) "boom" = true ∧
    containsString (backendErrorMsg "f" (some "boom")) "http://origin.example" = false :=
  ⟨rfl, rfl, by decide, by decide, by decide⟩

/-- C5 (amended): a `success: false` envelope rejects with a message whose
text combines the function name and the server-supplied error message; the
origin address appears only in network-error messages, not in envelope
failures. -/
theorem c5_amended_message_parts (c : RPCState) (name : String)
    (params : List JsValue) (d : Option JsValue) (e : String) :
    (RPC.call c name params (FetchResult.ok ⟨false, d, some e⟩)).2.2 =
      CallOutcome.rejected (backendErrorMsg name (some e)) ∧
    containsString (backendErrorMsg name (some e)) name = true ∧
    containsString (backendErrorMsg name (some e)) e = true := by
  refine ⟨rfl, ?_, ?_⟩
  · exact containsString_mid "RPC function error from backend: " name "()\t " e
  · exact containsString_end (("RPC function error from backend: " ++ name) ++ "()\t ") e

/-- C6: when the underlying fetch fails, `call` rejects (never resolves) with
the network-error message, which contains the original transport cause and
begins with the network-error marker text. -/
theorem c6_network_error (c : RPCState) (name : String) (params : List JsValue)
    (cause : String) :
    (RPC.call c name params (FetchResult.networkError cause)).2.2 =
      CallOutcome.rejected (networkErrorMsg name (RPC.urlString c) cause) ∧
    containsString (networkErrorMsg name (RPC.urlString c) cause) cause = true ∧
    listStartsWith (networkErrorMsg name (RPC.urlString c) cause).data
      ("RPC Network Error".data) = true := by
  refine ⟨rfl, ?_, ?_⟩
  · exact containsString_end
      (((("RPC Network Error while calling " ++ name) ++ " from ") ++
        RPC.urlString c) ++ ": ") cause
  · have h0 : listStartsWith ("RPC Network Error while calling ".data)
        ("RPC Network Error".data) = true := by decide
    exact listStartsWith_append_right _ _ _
      (listStartsWith_append_right _ _ _
        (listStartsWith_append_right _ _ _
          (listStartsWith_append_right _ _ _
            (listStartsWith_append_right _ _ _ h0))))

/-- C7 counterexample: constructing the client from `"a//"` stores `"a/"`
(only the final character is dropped), which still ends with `"/"`, refuting
the claim's conjunct that the stored url never ends with a slash. -/
theorem c7_counterexample :
    RPC.urlString (mkRPC (CtorArg.str "a//")) = "a/" ∧
    jsEndsWith (RPC.urlString (mkRPC (CtorArg.str "a//"))) "/" = true :=
  ⟨by decide, by decide⟩

/-- C7 (amended): the stored url is the input without its final character
when the input ends with `"/"`, and the input unchanged otherwise; exactly
one trailing slash is removed, so when the input has a single trailing slash
(`t ++ "/"` with `t` not ending in `"/"`) the stored url is `t` and does not
end with `"/"` (an input ending in several slashes keeps the remaining ones). -/
theorem c7_amended_normalization (s t : String) (ht : jsEndsWith t "/" = false) :
    (jsEndsWith s "/" = true →
      RPC.urlString (mkRPC (CtorArg.str s)) = jsSliceDropLast s) ∧
    (jsEndsWith s "/" = false → RPC.urlString (mkRPC (CtorArg.str s)) = s) ∧
    RPC.urlString (mkRPC (CtorArg.str (t ++ "/"))) = t ∧
    jsEndsWith (RPC.urlString (mkRPC (CtorArg.str (t ++ "/")))) "/" = false := by
  have h3 : RPC.urlString (mkRPC (CtorArg.str (t ++ "/"))) = t := by
    rw [urlString_mkRPC_str]
    simp [normalizeUrl, jsEndsWith_append_slash, jsSliceDropLast_append_slash]
  refine ⟨?_, ?_, h3, ?_⟩
  · intro h; rw [urlString_mkRPC_str]; simp [normalizeUrl, h]
  · intro h; rw [urlString_mkRPC_str]; simp [normalizeUrl, h]
  · rw [h3]; exact ht

/-- Witness for C7 (amended) at `t := "x"` and `s := "y"`. -/
theorem c7_amended_witness :
    jsEndsWith "x" "/" = false ∧
    RPC.urlString (mkRPC (CtorArg.str ("x" ++ "/"))) = "x" ∧
    jsEndsWith (RPC.urlString (mkRPC (CtorArg.str ("x" ++ "/")))) "/" = false ∧
    RPC.urlString (mkRPC (CtorArg.str "y")) = "y" :=
  ⟨by decide, (c7_amended_normalization "y" "x" (by decide)).2.2.1,
   (c7_amended_normalization "y" "x" (by decide)).2.2.2,
   (c7_amended_normalization "y" "x" (by decide)).2.1 (by decide)⟩

/-- C8: the stub table only grows: after any `load`, every name whose stub
was installed earlier still holds its stub (`load` overwrites such an entry
only with the identical stub and never removes it), and `call` leaves the
instance state untouched — it adds, removes and changes nothing. -/
theorem c8_stub_table_monotone :
    (∀ (c : RPCState) (names : List String) (n : String),
        stubInstalled c n → stubInstalled (RPC.load c names) n) ∧
    (∀ (c : RPCState) (name : String) (params : List JsValue) (fr : FetchResult),
        (RPC.call c name params fr).1 = c) := by
  constructor
  · intro c names n h
    show lookupProp
        (names.foldl (fun ps name => setProp ps name (PropValue.stub name)) c.ownProps) n =
      some (PropValue.stub n)
    rw [lookupProp_loadFold]
    by_cases hn : n ∈ names
    · simp [hn]
    · simpa [hn] using h
  · intro c name params fr
    rfl

/-- Witness for C8: a stub installed for `b` survives a later `load` of `x`,
and `call` returns the constructed state unchanged. -/
theorem c8_witness :
    stubInstalled (RPC.load (RPC.load (mkRPC (CtorArg.str "u")) ["b"]) ["x"]) "b" ∧
    (RPC.call (mkRPC (CtorArg.str "u")) "n" [] (FetchResult.networkError "e")).1 =
      mkRPC (CtorArg.str "u") :=
  ⟨c8_stub_table_monotone.1 (RPC.load (mkRPC (CtorArg.str "u")) ["b"]) ["x"] "b"
      (by decide),
   c8_stub_table_monotone.2 (mkRPC (CtorArg.str "u")) "n" [] (FetchResult.networkError "e")⟩

/-- C9: constructing from the plain string `s` and from the config object
`{ url: s }` produce identical clients, and in particular the identical
stored url (the same trailing-slash normalization of `s`). -/
theorem c9_string_config_equivalent (s : String) :
    mkRPC (CtorArg.str s) = mkRPC (CtorArg.config ⟨s⟩) ∧
    RPC.urlString (mkRPC (CtorArg.config ⟨s⟩)) = normalizeUrl s :=
  ⟨rfl, rfl⟩

/-- C10: `load` installs a stub under every given name unconditionally: after
a `load` whose name list contains `n`, property `n` of the client is the
forwarding stub, whatever member (own `url` property or prototype method such
as `call` or `load`) that name previously reached. -/
theorem c10_load_unconditional (c : RPCState) (names : List String) (n : String)
    (h : n ∈ names) :
    RPC.getProp (RPC.load c names) n = Member.value (PropValue.stub n) := by
  have hl : lookupProp (RPC.load c names).ownProps n = some (PropValue.stub n) := by
    show lookupProp
        (names.foldl (fun ps name => setProp ps name (PropValue.stub name)) c.ownProps) n =
      some (PropValue.stub n)
    rw [lookupProp_loadFold]
    simp [h]
  simp [RPC.getProp, hl]

/-- Witness for C10: before the `load`, `url` is the stored string and `call`
the prototype method; after `load ["call", "url", "load"]` both names reach
the installed stubs instead. -/
theorem c10_witness :
    RPC.getProp (mkRPC (CtorArg.str "/api")) "url" =
      Member.value (PropValue.str "/api") ∧
    RPC.getProp (mkRPC (CtorArg.str "/api")) "call" = Member.classMethod "call" ∧
    RPC.getProp (RPC.load (mkRPC (CtorArg.str "/api")) ["call", "url", "load"]) "url" =
      Member.value (PropValue.stub "url") ∧
    RPC.getProp (RPC.load (mkRPC (CtorArg.str "/api")) ["call", "url", "load"]) "call" =
      Member.value (PropValue.stub "call") :=
  ⟨by decide, by decide,
   c10_load_unconditional _ _ _ (by decide),
   c10_load_unconditional _ _ _ (by decide)⟩
